import Mathlib

/-!
Verification of the user-configuration store of
`src/llm_answer_watcher/user_config_router.py`.

The router file under `src/` defines the HTTP-facing operations
(`add_brand`, `remove_brand`, `list_brands`, `add_intent`, `remove_intent`,
`list_intents`) on top of six storage functions imported from
`llm_answer_watcher.storage.db`, whose source is not part of the repository
snapshot.  The storage functions are therefore modelled from the spec
(uniqueness constraint on (owner_id, name-field); insertion-ordered reads
scoped by owner; delete by id AND owner in one predicate; idempotent schema
initialisation), while the router bodies are translated line by line.

The persistent store is a `Store` value threaded explicitly; a
`sqlite3.IntegrityError` is `Option.none` from the modelled insert; an
`HTTPException` is the `httpError` constructor of `ApiResult`; the
`with sqlite3.connect(...)` block commits the transaction on normal exit and
rolls it back when an exception escapes, so an error path returns the store
as it stood when the block was entered.
-/

namespace LansUserConfig

/-- A brand row: `BrandResponse` of the router plus the `owner_id` column the
store scopes it by. -/
structure Brand where
  id : Nat
  owner_id : String
  brand_name : String
  is_mine : Bool
  created_at : String
deriving DecidableEq

/-- An intent row: `IntentResponse` of the router plus its `owner_id`. -/
structure Intent where
  id : Nat
  owner_id : String
  intent_alias : String
  prompt : String
  created_at : String
deriving DecidableEq

/-- The persistent store: schema flag, rowid counters, a logical clock that
feeds `created_at`, and the two tables in insertion order. -/
structure Store where
  ready : Bool
  next_brand_id : Nat
  next_intent_id : Nat
  clock : Nat
  brands : List Brand
  intents : List Intent
deriving DecidableEq

/-- The store before any operation ran: no schema, empty tables, rowids
starting at 1. -/
def store0 : Store :=
  { ready := false, next_brand_id := 1, next_intent_id := 1, clock := 0,
    brands := [], intents := [] }

/-- Rendering of the creation timestamp from the logical clock; stands for
the non-empty timestamp string the store assigns. -/
def timestampStr (c : Nat) : String := "t" ++ toString c

/-- Modelled from the spec: `init_db_if_needed` (imported from
`llm_answer_watcher.storage.db`, not in `src/`) ensures the schema exists;
idempotent, no effect on existing rows. -/
def init_db_if_needed (s : Store) : Store := { s with ready := true }

/-- Modelled from the spec: `create_user_brand` (not in `src/`) inserts a row
with a fresh id and the current timestamp and returns the new id, or raises
`IntegrityError` (here `none`) when the uniqueness constraint on
(owner_id, brand_name) is violated. -/
def create_user_brand (s : Store) (owner name : String) (mine : Bool) :
    Option (Nat × Store) :=
  if s.brands.any (fun b => b.owner_id == owner && b.brand_name == name) then
    none
  else
    some (s.next_brand_id,
      { s with
        brands := s.brands ++
          [{ id := s.next_brand_id, owner_id := owner, brand_name := name,
             is_mine := mine, created_at := timestampStr s.clock }],
        next_brand_id := s.next_brand_id + 1,
        clock := s.clock + 1 })

/-- Modelled from the spec: `get_user_brands` (not in `src/`) returns the
rows owned by `owner`, in insertion order. -/
def get_user_brands (s : Store) (owner : String) : List Brand :=
  s.brands.filter (fun b => b.owner_id == owner)

/-- Modelled from the spec: `delete_user_brand` (not in `src/`) deletes the
row whose id AND owner match, in one predicate; returns whether a row was
removed. -/
def delete_user_brand (s : Store) (brand_id : Nat) (owner : String) :
    Bool × Store :=
  (s.brands.any (fun b => b.id == brand_id && b.owner_id == owner),
   { s with
     brands := s.brands.filter
       (fun b => !(b.id == brand_id && b.owner_id == owner)) })

/-- Modelled from the spec: `create_user_intent` (not in `src/`), symmetric
to `create_user_brand` with uniqueness key (owner_id, intent_alias). -/
def create_user_intent (s : Store) (owner alias_ prompt : String) :
    Option (Nat × Store) :=
  if s.intents.any (fun i => i.owner_id == owner && i.intent_alias == alias_) then
    none
  else
    some (s.next_intent_id,
      { s with
        intents := s.intents ++
          [{ id := s.next_intent_id, owner_id := owner, intent_alias := alias_,
             prompt := prompt, created_at := timestampStr s.clock }],
        next_intent_id := s.next_intent_id + 1,
        clock := s.clock + 1 })

/-- Modelled from the spec: `get_user_intents` (not in `src/`), symmetric to
`get_user_brands`. -/
def get_user_intents (s : Store) (owner : String) : List Intent :=
  s.intents.filter (fun i => i.owner_id == owner)

/-- Modelled from the spec: `delete_user_intent` (not in `src/`), symmetric
to `delete_user_brand`. -/
def delete_user_intent (s : Store) (intent_id : Nat) (owner : String) :
    Bool × Store :=
  (s.intents.any (fun i => i.id == intent_id && i.owner_id == owner),
   { s with
     intents := s.intents.filter
       (fun i => !(i.id == intent_id && i.owner_id == owner)) })

/-- Outcome of a router endpoint: a value, or an `HTTPException` carrying a
status code and a detail string. -/
inductive ApiResult (α : Type) where
  | ok : α → ApiResult α
  | httpError : Nat → String → ApiResult α
deriving DecidableEq

/-- The detail string of the duplicate-brand rejection in `add_brand`. -/
def duplicateBrandDetail (name : String) : String :=
  "Brand '" ++ name ++ "' already exists"

/-- The detail string of the duplicate-intent rejection in `add_intent`. -/
def duplicateIntentDetail (alias_ : String) : String :=
  "Intent alias '" ++ alias_ ++ "' already exists"

/-- `add_brand` of the router: init the schema, insert, then fetch the
owner's rows back and return the one carrying the new id; `IntegrityError`
becomes a 400, a failed fetch-back a 500, and an escaping exception rolls
the transaction back. -/
def add_brand (s : Store) (owner brand_name : String) (is_mine : Bool) :
    ApiResult Brand × Store :=
  let s0 := init_db_if_needed s
  match create_user_brand s0 owner brand_name is_mine with
  | none => (ApiResult.httpError 400 (duplicateBrandDetail brand_name), s0)
  | some (brand_id, s1) =>
    match (get_user_brands s1 owner).find? (fun b => b.id == brand_id) with
    | some created => (ApiResult.ok created, s1)
    | none => (ApiResult.httpError 500 "Failed to retrieve created brand", s0)

/-- `list_brands` of the router: init the schema, read the owner's rows. -/
def list_brands (s : Store) (owner : String) : List Brand × Store :=
  let s0 := init_db_if_needed s
  (get_user_brands s0 owner, s0)

/-- `remove_brand` of the router: init the schema, delete by id and owner,
404 when no row was removed. -/
def remove_brand (s : Store) (owner : String) (brand_id : Nat) :
    ApiResult String × Store :=
  let s0 := init_db_if_needed s
  let r := delete_user_brand s0 brand_id owner
  if r.1 then (ApiResult.ok "Brand deleted", r.2)
  else (ApiResult.httpError 404 "Brand not found", r.2)

/-- `add_intent` of the router, mirroring `add_brand`. -/
def add_intent (s : Store) (owner alias_ prompt : String) :
    ApiResult Intent × Store :=
  let s0 := init_db_if_needed s
  match create_user_intent s0 owner alias_ prompt with
  | none => (ApiResult.httpError 400 (duplicateIntentDetail alias_), s0)
  | some (intent_id, s1) =>
    match (get_user_intents s1 owner).find? (fun i => i.id == intent_id) with
    | some created => (ApiResult.ok created, s1)
    | none => (ApiResult.httpError 500 "Failed to retrieve created intent", s0)

/-- `list_intents` of the router, mirroring `list_brands`. -/
def list_intents (s : Store) (owner : String) : List Intent × Store :=
  let s0 := init_db_if_needed s
  (get_user_intents s0 owner, s0)

/-- `remove_intent` of the router, mirroring `remove_brand`. -/
def remove_intent (s : Store) (owner : String) (intent_id : Nat) :
    ApiResult String × Store :=
  let s0 := init_db_if_needed s
  let r := delete_user_intent s0 intent_id owner
  if r.1 then (ApiResult.ok "Intent deleted", r.2)
  else (ApiResult.httpError 404 "Intent not found", r.2)

/-- The row inserted by a successful create on store `s`: fresh id from the
rowid counter, timestamp from the clock. -/
def newBrand (s : Store) (owner name : String) (mine : Bool) : Brand :=
  { id := s.next_brand_id, owner_id := owner, brand_name := name,
    is_mine := mine, created_at := timestampStr s.clock }

/-- The store after a successful brand insert on `s` (schema ensured, row
appended, counter and clock advanced). -/
def insertBrandStore (s : Store) (owner name : String) (mine : Bool) : Store :=
  { s with ready := true,
           brands := s.brands ++ [newBrand s owner name mine],
           next_brand_id := s.next_brand_id + 1,
           clock := s.clock + 1 }

/-- The row inserted by a successful intent create on store `s`. -/
def newIntent (s : Store) (owner alias_ prompt : String) : Intent :=
  { id := s.next_intent_id, owner_id := owner, intent_alias := alias_,
    prompt := prompt, created_at := timestampStr s.clock }

/-- The store after a successful intent insert on `s`. -/
def insertIntentStore (s : Store) (owner alias_ prompt : String) : Store :=
  { s with ready := true,
           intents := s.intents ++ [newIntent s owner alias_ prompt],
           next_intent_id := s.next_intent_id + 1,
           clock := s.clock + 1 }

/-- Whether a row with uniqueness key (owner_id, brand_name) is present: the
condition `create_user_brand` rejects on. -/
def hasBrandKey (s : Store) (owner name : String) : Bool :=
  s.brands.any (fun b => b.owner_id == owner && b.brand_name == name)

/-- Whether a row with uniqueness key (owner_id, intent_alias) is present. -/
def hasIntentKey (s : Store) (owner alias_ : String) : Bool :=
  s.intents.any (fun i => i.owner_id == owner && i.intent_alias == alias_)

/-- No two brand rows share the pair (owner_id, brand_name). -/
def BrandKeysUnique (s : Store) : Prop :=
  s.brands.Pairwise (fun a b => a.owner_id ≠ b.owner_id ∨ a.brand_name ≠ b.brand_name)

/-- No two intent rows share the pair (owner_id, intent_alias). -/
def IntentKeysUnique (s : Store) : Prop :=
  s.intents.Pairwise (fun a b => a.owner_id ≠ b.owner_id ∨ a.intent_alias ≠ b.intent_alias)

/-- The store invariant every reachable state satisfies: row ids are below
the rowid counter and pairwise distinct, uniqueness keys are pairwise
distinct, and timestamps are non-empty. -/
def Inv (s : Store) : Prop :=
  (∀ b ∈ s.brands, b.id < s.next_brand_id) ∧
  (s.brands.map Brand.id).Nodup ∧
  BrandKeysUnique s ∧
  (∀ b ∈ s.brands, b.created_at ≠ "") ∧
  (∀ i ∈ s.intents, i.id < s.next_intent_id) ∧
  (s.intents.map Intent.id).Nodup ∧
  IntentKeysUnique s ∧
  (∀ i ∈ s.intents, i.created_at ≠ "")

/-- Modelled from the spec: the create the spec requires (section 4.2 and the
section 9 design note) returns the generated id and timestamp directly from
the same atomic insert, never via a separate lookup. -/
def add_brand_atomic (s : Store) (owner brand_name : String) (is_mine : Bool) :
    ApiResult Brand × Store :=
  let s0 := init_db_if_needed s
  match create_user_brand s0 owner brand_name is_mine with
  | none => (ApiResult.httpError 400 (duplicateBrandDetail brand_name), s0)
  | some (_, s1) => (ApiResult.ok (newBrand s0 owner brand_name is_mine), s1)

/-- `add_brand` with the race window of the source made explicit: section 9
of the spec calls the fetch-back after insert a correctness risk, a race
between insert and re-read under concurrency; `mid` is the effect of a
concurrent request that the store applies between the insert and the
re-read. -/
def add_brand_interleaved (mid : Store → Store) (s : Store)
    (owner brand_name : String) (is_mine : Bool) : ApiResult Brand × Store :=
  let s0 := init_db_if_needed s
  match create_user_brand s0 owner brand_name is_mine with
  | none => (ApiResult.httpError 400 (duplicateBrandDetail brand_name), s0)
  | some (brand_id, s1) =>
    let s2 := mid s1
    match (get_user_brands s2 owner).find? (fun b => b.id == brand_id) with
    | some created => (ApiResult.ok created, s2)
    | none => (ApiResult.httpError 500 "Failed to retrieve created brand", s2)

/-- The concurrent request of the race scenario: a delete of row id 1 by its
owner, committed between another call's insert and re-read. -/
def midDelete : Store → Store := fun t => (delete_user_brand t 1 "u1").2

/-- One repository operation, as issued through the router. -/
inductive Op where
  | createBrand : String → String → Bool → Op
  | createIntent : String → String → String → Op
  | deleteBrand : String → Nat → Op
  | deleteIntent : String → Nat → Op
  | listBrandsOp : String → Op
  | listIntentsOp : String → Op

/-- The store after one router operation. -/
def applyOp (s : Store) : Op → Store
  | Op.createBrand o n m => (add_brand s o n m).2
  | Op.createIntent o a p => (add_intent s o a p).2
  | Op.deleteBrand o i => (remove_brand s o i).2
  | Op.deleteIntent o i => (remove_intent s o i).2
  | Op.listBrandsOp o => (list_brands s o).2
  | Op.listIntentsOp o => (list_intents s o).2

/-- The store after a sequence of router operations. -/
def run (s : Store) : List Op → Store
  | [] => s
  | op :: ops => run (applyOp s op) ops

/-- Sequential `add_brand` calls for one owner, one per (name, is_mine)
pair; returns every call's result and the final store. -/
def createMany (s : Store) (owner : String) :
    List (String × Bool) → List (ApiResult Brand) × Store
  | [] => ([], s)
  | x :: xs =>
    let r := add_brand s owner x.1 x.2
    let rest := createMany r.2 owner xs
    (r.1 :: rest.1, rest.2)

/-- Sequential `add_intent` calls for one owner, one per (alias, prompt)
pair. -/
def createIntentMany (s : Store) (owner : String) :
    List (String × String) → List (ApiResult Intent) × Store
  | [] => ([], s)
  | x :: xs =>
    let r := add_intent s owner x.1 x.2
    let rest := createIntentMany r.2 owner xs
    (r.1 :: rest.1, rest.2)

/-- `n` `add_brand` calls with one and the same (owner, name, is_mine): the
storage layer's serialization of `n` concurrent identical creates. -/
def createSame (s : Store) (owner name : String) (mine : Bool) :
    Nat → List (ApiResult Brand) × Store
  | 0 => ([], s)
  | Nat.succ n =>
    let r := add_brand s owner name mine
    let rest := createSame r.2 owner name mine n
    (r.1 :: rest.1, rest.2)

/-- Whether an endpoint outcome is a success. -/
def isOk {α : Type} : ApiResult α → Bool
  | ApiResult.ok _ => true
  | ApiResult.httpError _ _ => false

/-- A store holding one brand and one intent of user u2, used to instantiate
the theorems at concrete inputs. -/
def demoStore : Store :=
  { ready := true, next_brand_id := 2, next_intent_id := 2, clock := 2,
    brands := [{ id := 1, owner_id := "u2", brand_name := "acme",
                 is_mine := true, created_at := "t0" }],
    intents := [{ id := 1, owner_id := "u2", intent_alias := "welcome",
                  prompt := "hello", created_at := "t1" }] }


theorem timestampStr_ne_empty (c : Nat) : timestampStr c ≠ "" := by
  intro h
  have hlen := congrArg String.length h
  simp [timestampStr, String.length_append] at hlen
  exact absurd hlen.1 (by decide)

theorem init_idem (s : Store) :
    init_db_if_needed (init_db_if_needed s) = init_db_if_needed s := rfl

theorem find?_filter_id_none (l : List Brand) (n : Nat)
    (h : ∀ b ∈ l, b.id < n) (owner : String) :
    (l.filter (fun b => b.owner_id == owner)).find? (fun b => b.id == n) = none := by
  refine List.find?_eq_none.mpr ?_
  intro b hb
  have hbl : b ∈ l := (List.mem_filter.mp hb).1
  have := h b hbl
  simp [Nat.ne_of_lt this]

theorem add_brand_ok (s : Store) (owner name : String) (mine : Bool)
    (hids : ∀ b ∈ s.brands, b.id < s.next_brand_id)
    (hkey : hasBrandKey s owner name = false) :
    add_brand s owner name mine =
      (ApiResult.ok (newBrand s owner name mine),
       insertBrandStore s owner name mine) := by
  have hcond : (init_db_if_needed s).brands.any
      (fun b => b.owner_id == owner && b.brand_name == name) = false := hkey
  have hfind :
      (get_user_brands (insertBrandStore s owner name mine) owner).find?
        (fun b => b.id == s.next_brand_id) = some (newBrand s owner name mine) := by
    simp only [get_user_brands, insertBrandStore, List.filter_append]
    rw [List.find?_append, find?_filter_id_none s.brands s.next_brand_id hids owner]
    simp [newBrand]
  simp only [add_brand, create_user_brand, hcond]
  simp only [Bool.false_eq_true, if_false]
  simp only [insertBrandStore, newBrand, init_db_if_needed] at hfind
  simp [init_db_if_needed, hfind, insertBrandStore, newBrand]

theorem add_brand_dup (s : Store) (owner name : String) (mine : Bool)
    (hkey : hasBrandKey s owner name = true) :
    add_brand s owner name mine =
      (ApiResult.httpError 400 (duplicateBrandDetail name), init_db_if_needed s) := by
  have hcond : (init_db_if_needed s).brands.any
      (fun b => b.owner_id == owner && b.brand_name == name) = true := hkey
  simp [add_brand, create_user_brand, hcond]

theorem hasBrandKey_insert_self (s : Store) (owner name : String) (mine : Bool) :
    hasBrandKey (insertBrandStore s owner name mine) owner name = true := by
  simp [hasBrandKey, insertBrandStore, newBrand, List.any_append]

theorem hasBrandKey_insert_of_ne (s : Store) (owner name : String) (mine : Bool)
    (o2 n2 : String) (hkey2 : hasBrandKey s o2 n2 = false)
    (hne : ¬(owner = o2 ∧ name = n2)) :
    hasBrandKey (insertBrandStore s owner name mine) o2 n2 = false := by
  simp only [hasBrandKey, insertBrandStore, newBrand, List.any_append]
  simp only [hasBrandKey] at hkey2
  rw [hkey2]
  simp only [Bool.false_or, List.any_cons, List.any_nil, Bool.or_false]
  rw [Bool.and_eq_false_iff]
  by_cases ho : owner = o2
  · right
    subst ho
    rw [beq_eq_false_iff_ne]
    intro hn
    exact hne ⟨rfl, hn⟩
  · left
    rw [beq_eq_false_iff_ne]
    exact ho

theorem Inv_init (s : Store) (h : Inv s) : Inv (init_db_if_needed s) := h

theorem Inv_insertBrand (s : Store) (owner name : String) (mine : Bool)
    (h : Inv s) (hkey : hasBrandKey s owner name = false) :
    Inv (insertBrandStore s owner name mine) := by
  obtain ⟨h1, h2, h3, h4, h5, h6, h7, h8⟩ := h
  have hkey2 : ∀ b ∈ s.brands, ¬(b.owner_id = owner ∧ b.brand_name = name) := by
    intro b hb hcontra
    have hx : s.brands.any (fun b => b.owner_id == owner && b.brand_name == name) = true :=
      List.any_eq_true.mpr ⟨b, hb, by simp [hcontra.1, hcontra.2]⟩
    rw [hasBrandKey] at hkey
    rw [hkey] at hx
    exact absurd hx (by simp)
  refine ⟨?_, ?_, ?_, ?_, h5, h6, h7, h8⟩
  · intro b hb
    rcases List.mem_append.mp hb with hold | hnew
    · exact Nat.lt_trans (h1 b hold) (Nat.lt_succ_self _)
    · simp only [List.mem_singleton] at hnew
      subst hnew
      simp [newBrand, insertBrandStore, Nat.lt_succ_self]
  · simp only [insertBrandStore, List.map_append]
    rw [List.nodup_append]
    refine ⟨h2, by simp, ?_⟩
    intro a ha
    simp only [List.map_cons, List.map_nil, newBrand] at *
    simp only [List.mem_map] at ha
    obtain ⟨b, hb, hba⟩ := ha
    subst hba
    simp only [List.mem_singleton]
    intro hcontra
    exact absurd (hcontra ▸ h1 b hb) (Nat.lt_irrefl _)
  · simp only [BrandKeysUnique, insertBrandStore]
    rw [List.pairwise_append]
    refine ⟨h3, by simp, ?_⟩
    intro a ha b hb
    simp only [List.mem_singleton] at hb
    subst hb
    simp only [newBrand]
    by_cases ho : a.owner_id = owner
    · right
      intro hn
      exact hkey2 a ha ⟨ho, hn⟩
    · left
      exact ho
  · intro b hb
    rcases List.mem_append.mp hb with hold | hnew
    · exact h4 b hold
    · simp only [List.mem_singleton] at hnew
      subst hnew
      exact timestampStr_ne_empty _

theorem Inv_deleteBrand (s : Store) (rid : Nat) (owner : String) (h : Inv s) :
    Inv (delete_user_brand s rid owner).2 := by
  obtain ⟨h1, h2, h3, h4, h5, h6, h7, h8⟩ := h
  refine ⟨?_, ?_, ?_, ?_, h5, h6, h7, h8⟩
  · intro b hb
    exact h1 b (List.mem_filter.mp hb).1
  · exact h2.sublist ((List.filter_sublist _).map _)
  · exact h3.sublist (List.filter_sublist _)
  · intro b hb
    exact h4 b (List.mem_filter.mp hb).1

theorem find?_filter_intent_id_none (l : List Intent) (n : Nat)
    (h : ∀ i ∈ l, i.id < n) (owner : String) :
    (l.filter (fun i => i.owner_id == owner)).find? (fun i => i.id == n) = none := by
  refine List.find?_eq_none.mpr ?_
  intro i hi
  have hil : i ∈ l := (List.mem_filter.mp hi).1
  have := h i hil
  simp [Nat.ne_of_lt this]

theorem add_intent_ok (s : Store) (owner alias_ prompt : String)
    (hids : ∀ i ∈ s.intents, i.id < s.next_intent_id)
    (hkey : hasIntentKey s owner alias_ = false) :
    add_intent s owner alias_ prompt =
      (ApiResult.ok (newIntent s owner alias_ prompt),
       insertIntentStore s owner alias_ prompt) := by
  have hcond : (init_db_if_needed s).intents.any
      (fun i => i.owner_id == owner && i.intent_alias == alias_) = false := hkey
  have hfind :
      (get_user_intents (insertIntentStore s owner alias_ prompt) owner).find?
        (fun i => i.id == s.next_intent_id) = some (newIntent s owner alias_ prompt) := by
    simp only [get_user_intents, insertIntentStore, List.filter_append]
    rw [List.find?_append, find?_filter_intent_id_none s.intents s.next_intent_id hids owner]
    simp [newIntent]
  simp only [add_intent, create_user_intent, hcond]
  simp only [Bool.false_eq_true, if_false]
  simp only [insertIntentStore, newIntent, init_db_if_needed] at hfind
  simp [init_db_if_needed, hfind, insertIntentStore, newIntent]

theorem add_intent_dup (s : Store) (owner alias_ prompt : String)
    (hkey : hasIntentKey s owner alias_ = true) :
    add_intent s owner alias_ prompt =
      (ApiResult.httpError 400 (duplicateIntentDetail alias_), init_db_if_needed s) := by
  have hcond : (init_db_if_needed s).intents.any
      (fun i => i.owner_id == owner && i.intent_alias == alias_) = true := hkey
  simp [add_intent, create_user_intent, hcond]

theorem hasIntentKey_insert_self (s : Store) (owner alias_ prompt : String) :
    hasIntentKey (insertIntentStore s owner alias_ prompt) owner alias_ = true := by
  simp [hasIntentKey, insertIntentStore, newIntent, List.any_append]

theorem Inv_insertIntent (s : Store) (owner alias_ prompt : String)
    (h : Inv s) (hkey : hasIntentKey s owner alias_ = false) :
    Inv (insertIntentStore s owner alias_ prompt) := by
  obtain ⟨h1, h2, h3, h4, h5, h6, h7, h8⟩ := h
  have hkey2 : ∀ i ∈ s.intents, ¬(i.owner_id = owner ∧ i.intent_alias = alias_) := by
    intro i hi hcontra
    have hx : s.intents.any (fun i => i.owner_id == owner && i.intent_alias == alias_) = true :=
      List.any_eq_true.mpr ⟨i, hi, by simp [hcontra.1, hcontra.2]⟩
    rw [hasIntentKey] at hkey
    rw [hkey] at hx
    exact absurd hx (by simp)
  refine ⟨h1, h2, h3, h4, ?_, ?_, ?_, ?_⟩
  · intro i hi
    rcases List.mem_append.mp hi with hold | hnew
    · exact Nat.lt_trans (h5 i hold) (Nat.lt_succ_self _)
    · simp only [List.mem_singleton] at hnew
      subst hnew
      simp [newIntent, insertIntentStore, Nat.lt_succ_self]
  · simp only [insertIntentStore, List.map_append]
    rw [List.nodup_append]
    refine ⟨h6, by simp, ?_⟩
    intro a ha
    simp only [List.map_cons, List.map_nil, newIntent] at *
    simp only [List.mem_map] at ha
    obtain ⟨i, hi, hia⟩ := ha
    subst hia
    simp only [List.mem_singleton]
    intro hcontra
    exact absurd (hcontra ▸ h5 i hi) (Nat.lt_irrefl _)
  · simp only [IntentKeysUnique, insertIntentStore]
    rw [List.pairwise_append]
    refine ⟨h7, by simp, ?_⟩
    intro a ha i hi
    simp only [List.mem_singleton] at hi
    subst hi
    simp only [newIntent]
    by_cases ho : a.owner_id = owner
    · right
      intro hn
      exact hkey2 a ha ⟨ho, hn⟩
    · left
      exact ho
  · intro i hi
    rcases List.mem_append.mp hi with hold | hnew
    · exact h8 i hold
    · simp only [List.mem_singleton] at hnew
      subst hnew
      exact timestampStr_ne_empty _

theorem Inv_deleteIntent (s : Store) (rid : Nat) (owner : String) (h : Inv s) :
    Inv (delete_user_intent s rid owner).2 := by
  obtain ⟨h1, h2, h3, h4, h5, h6, h7, h8⟩ := h
  refine ⟨h1, h2, h3, h4, ?_, ?_, ?_, ?_⟩
  · intro i hi
    exact h5 i (List.mem_filter.mp hi).1
  · exact h6.sublist ((List.filter_sublist _).map _)
  · exact h7.sublist (List.filter_sublist _)
  · intro i hi
    exact h8 i (List.mem_filter.mp hi).1

theorem Inv_add_brand (s : Store) (owner name : String) (mine : Bool)
    (h : Inv s) : Inv (add_brand s owner name mine).2 := by
  cases hkey : hasBrandKey s owner name with
  | true =>
    rw [add_brand_dup s owner name mine hkey]
    exact h
  | false =>
    rw [add_brand_ok s owner name mine h.1 hkey]
    exact Inv_insertBrand s owner name mine h hkey

theorem Inv_add_intent (s : Store) (owner alias_ prompt : String)
    (h : Inv s) : Inv (add_intent s owner alias_ prompt).2 := by
  cases hkey : hasIntentKey s owner alias_ with
  | true =>
    rw [add_intent_dup s owner alias_ prompt hkey]
    exact h
  | false =>
    rw [add_intent_ok s owner alias_ prompt h.2.2.2.2.1 hkey]
    exact Inv_insertIntent s owner alias_ prompt h hkey

theorem Inv_remove_brand (s : Store) (owner : String) (rid : Nat)
    (h : Inv s) : Inv (remove_brand s owner rid).2 := by
  have hd := Inv_deleteBrand (init_db_if_needed s) rid owner (Inv_init s h)
  simp only [remove_brand]
  split
  · exact hd
  · exact hd

theorem Inv_remove_intent (s : Store) (owner : String) (rid : Nat)
    (h : Inv s) : Inv (remove_intent s owner rid).2 := by
  have hd := Inv_deleteIntent (init_db_if_needed s) rid owner (Inv_init s h)
  simp only [remove_intent]
  split
  · exact hd
  · exact hd

theorem Inv_applyOp (s : Store) (op : Op) (h : Inv s) : Inv (applyOp s op) := by
  cases op with
  | createBrand o n m => exact Inv_add_brand s o n m h
  | createIntent o a p => exact Inv_add_intent s o a p h
  | deleteBrand o i => exact Inv_remove_brand s o i h
  | deleteIntent o i => exact Inv_remove_intent s o i h
  | listBrandsOp o => exact h
  | listIntentsOp o => exact h

theorem Inv_run (ops : List Op) : ∀ s : Store, Inv s → Inv (run s ops) := by
  induction ops with
  | nil => intro s h; exact h
  | cons op ops ih =>
    intro s h
    exact ih (applyOp s op) (Inv_applyOp s op h)

theorem Inv_store0 : Inv store0 := by
  refine ⟨?_, ?_, ?_, ?_, ?_, ?_, ?_, ?_⟩ <;>
    simp [store0, BrandKeysUnique, IntentKeysUnique]

theorem add_brand_fresh (s : Store) (owner name : String) (mine : Bool)
    (hkey : hasBrandKey s owner name = false) :
    ∃ b, add_brand s owner name mine =
        (ApiResult.ok b, insertBrandStore s owner name mine) ∧
      b ∈ (insertBrandStore s owner name mine).brands := by
  have hcond : (init_db_if_needed s).brands.any
      (fun b => b.owner_id == owner && b.brand_name == name) = false := hkey
  have hmem : newBrand s owner name mine ∈
      get_user_brands (insertBrandStore s owner name mine) owner := by
    simp [get_user_brands, insertBrandStore, newBrand, List.mem_filter]
  have hsome : ((get_user_brands (insertBrandStore s owner name mine) owner).find?
      (fun b => b.id == s.next_brand_id)).isSome :=
    List.find?_isSome.mpr ⟨newBrand s owner name mine, hmem, by simp [newBrand]⟩
  obtain ⟨b, hb⟩ := Option.isSome_iff_exists.mp hsome
  have hbmem : b ∈ (insertBrandStore s owner name mine).brands := by
    have := List.mem_of_find?_eq_some hb
    exact (List.mem_filter.mp this).1
  refine ⟨b, ?_, hbmem⟩
  simp only [add_brand, create_user_brand, hcond, Bool.false_eq_true, if_false]
  simp only [insertBrandStore, newBrand, init_db_if_needed] at hb
  simp [init_db_if_needed, hb, insertBrandStore, newBrand]

theorem add_intent_fresh (s : Store) (owner alias_ prompt : String)
    (hkey : hasIntentKey s owner alias_ = false) :
    ∃ i, add_intent s owner alias_ prompt =
        (ApiResult.ok i, insertIntentStore s owner alias_ prompt) ∧
      i ∈ (insertIntentStore s owner alias_ prompt).intents := by
  have hcond : (init_db_if_needed s).intents.any
      (fun i => i.owner_id == owner && i.intent_alias == alias_) = false := hkey
  have hmem : newIntent s owner alias_ prompt ∈
      get_user_intents (insertIntentStore s owner alias_ prompt) owner := by
    simp [get_user_intents, insertIntentStore, newIntent, List.mem_filter]
  have hsome : ((get_user_intents (insertIntentStore s owner alias_ prompt) owner).find?
      (fun i => i.id == s.next_intent_id)).isSome :=
    List.find?_isSome.mpr ⟨newIntent s owner alias_ prompt, hmem, by simp [newIntent]⟩
  obtain ⟨i, hi⟩ := Option.isSome_iff_exists.mp hsome
  have himem : i ∈ (insertIntentStore s owner alias_ prompt).intents := by
    have := List.mem_of_find?_eq_some hi
    exact (List.mem_filter.mp this).1
  refine ⟨i, ?_, himem⟩
  simp only [add_intent, create_user_intent, hcond, Bool.false_eq_true, if_false]
  simp only [insertIntentStore, newIntent, init_db_if_needed] at hi
  simp [init_db_if_needed, hi, insertIntentStore, newIntent]

theorem hasIntentKey_insert_of_ne (s : Store) (owner alias_ prompt : String)
    (o2 a2 : String) (hkey2 : hasIntentKey s o2 a2 = false)
    (hne : ¬(owner = o2 ∧ alias_ = a2)) :
    hasIntentKey (insertIntentStore s owner alias_ prompt) o2 a2 = false := by
  simp only [hasIntentKey, insertIntentStore, newIntent, List.any_append]
  simp only [hasIntentKey] at hkey2
  rw [hkey2]
  simp only [Bool.false_or, List.any_cons, List.any_nil, Bool.or_false]
  rw [Bool.and_eq_false_iff]
  by_cases ho : owner = o2
  · right
    subst ho
    rw [beq_eq_false_iff_ne]
    intro hn
    exact hne ⟨rfl, hn⟩
  · left
    rw [beq_eq_false_iff_ne]
    exact ho

theorem add_brand_cases (s : Store) (owner name : String) (mine : Bool) :
    (∃ b, add_brand s owner name mine =
        (ApiResult.ok b, insertBrandStore s owner name mine) ∧
      b ∈ (insertBrandStore s owner name mine).brands) ∨
    add_brand s owner name mine =
      (ApiResult.httpError 400 (duplicateBrandDetail name), init_db_if_needed s) := by
  cases hkey : hasBrandKey s owner name with
  | true => exact Or.inr (add_brand_dup s owner name mine hkey)
  | false => exact Or.inl (add_brand_fresh s owner name mine hkey)

theorem add_intent_cases (s : Store) (owner alias_ prompt : String) :
    (∃ i, add_intent s owner alias_ prompt =
        (ApiResult.ok i, insertIntentStore s owner alias_ prompt) ∧
      i ∈ (insertIntentStore s owner alias_ prompt).intents) ∨
    add_intent s owner alias_ prompt =
      (ApiResult.httpError 400 (duplicateIntentDetail alias_), init_db_if_needed s) := by
  cases hkey : hasIntentKey s owner alias_ with
  | true => exact Or.inr (add_intent_dup s owner alias_ prompt hkey)
  | false => exact Or.inl (add_intent_fresh s owner alias_ prompt hkey)

/-- C1: for a fresh (owner_id, brand_name) the first create_brand succeeds,
and a second call with the same owner_id and brand_name, for any is_mine
value, fails with the DuplicateName rejection (HTTP 400 with the
already-exists detail) and creates no second record. -/
theorem c1_first_create_succeeds_second_duplicate (s : Store)
    (owner name : String) (mine mine' : Bool)
    (hkey : hasBrandKey s owner name = false) :
    (∃ b, (add_brand s owner name mine).1 = ApiResult.ok b) ∧
    (add_brand (add_brand s owner name mine).2 owner name mine').1 =
      ApiResult.httpError 400 (duplicateBrandDetail name) ∧
    (add_brand (add_brand s owner name mine).2 owner name mine').2.brands =
      (add_brand s owner name mine).2.brands := by
  obtain ⟨b, heq, -⟩ := add_brand_fresh s owner name mine hkey
  have hdup : hasBrandKey (add_brand s owner name mine).2 owner name = true := by
    rw [heq]
    exact hasBrandKey_insert_self s owner name mine
  refine ⟨⟨b, by rw [heq]⟩, ?_, ?_⟩
  · rw [add_brand_dup _ owner name mine' hdup]
  · rw [add_brand_dup _ owner name mine' hdup]
    rfl

/-- C1 witness: on the empty store, user u1 creates brand acme once, and the
second create with is_mine flipped is rejected without a second record. -/
theorem c1_witness :
    (∃ b, (add_brand store0 "u1" "acme" true).1 = ApiResult.ok b) ∧
    (add_brand (add_brand store0 "u1" "acme" true).2 "u1" "acme" false).1 =
      ApiResult.httpError 400 (duplicateBrandDetail "acme") ∧
    (add_brand (add_brand store0 "u1" "acme" true).2 "u1" "acme" false).2.brands =
      (add_brand store0 "u1" "acme" true).2.brands :=
  c1_first_create_succeeds_second_duplicate store0 "u1" "acme" true false (by decide)

/-- C2: delete_user_brand returns true exactly when a record with that id
exists and is owned by the caller; a foreign record survives the call and
stays retrievable through list_brands of its owner; a repeated delete of the
same id by the same caller returns false; the router's remove_brand reports
success exactly in the owned-and-present case; and symmetrically for
intents. -/
theorem c2_delete_iff_owned (s : Store) (A : String) (rid : Nat) :
    ((delete_user_brand s rid A).1 = true ↔
      ∃ b ∈ s.brands, b.id = rid ∧ b.owner_id = A) ∧
    (∀ b ∈ s.brands, b.owner_id ≠ A →
      b ∈ (list_brands (delete_user_brand s rid A).2 b.owner_id).1) ∧
    (delete_user_brand (delete_user_brand s rid A).2 rid A).1 = false ∧
    ((remove_brand s A rid).1 = ApiResult.ok "Brand deleted" ↔
      ∃ b ∈ s.brands, b.id = rid ∧ b.owner_id = A) ∧
    ((delete_user_intent s rid A).1 = true ↔
      ∃ i ∈ s.intents, i.id = rid ∧ i.owner_id = A) ∧
    (∀ i ∈ s.intents, i.owner_id ≠ A →
      i ∈ (list_intents (delete_user_intent s rid A).2 i.owner_id).1) ∧
    (delete_user_intent (delete_user_intent s rid A).2 rid A).1 = false := by
  have hbiff : (delete_user_brand s rid A).1 = true ↔
      ∃ b ∈ s.brands, b.id = rid ∧ b.owner_id = A := by
    simp [delete_user_brand, List.any_eq_true]
  have hiiff : (delete_user_intent s rid A).1 = true ↔
      ∃ i ∈ s.intents, i.id = rid ∧ i.owner_id = A := by
    simp [delete_user_intent, List.any_eq_true]
  refine ⟨hbiff, ?_, ?_, ?_, hiiff, ?_, ?_⟩
  · intro b hb hne
    have hbmem : b ∈ (delete_user_brand s rid A).2.brands :=
      List.mem_filter.mpr ⟨hb, by simp [hne]⟩
    simp only [list_brands, get_user_brands, init_db_if_needed]
    exact List.mem_filter.mpr ⟨hbmem, by simp⟩
  · refine List.any_eq_false.mpr ?_
    intro b hb
    have hmem := (List.mem_filter.mp hb).2
    simp only [Bool.not_eq_true'] at hmem
    simp [hmem]
  · cases hd : (delete_user_brand s rid A).1 with
    | false =>
      have hr : (remove_brand s A rid).1 = ApiResult.httpError 404 "Brand not found" := by
        have hd' : (delete_user_brand (init_db_if_needed s) rid A).1 = false := hd
        simp [remove_brand, hd']
      rw [hr]
      constructor
      · intro hc
        exact absurd hc (by simp)
      · intro hex
        exact absurd (hbiff.mpr hex) (by simp [hd])
    | true =>
      have hr : (remove_brand s A rid).1 = ApiResult.ok "Brand deleted" := by
        have hd' : (delete_user_brand (init_db_if_needed s) rid A).1 = true := hd
        simp [remove_brand, hd']
      rw [hr]
      exact ⟨fun _ => hbiff.mp hd, fun _ => rfl⟩
  · intro i hi hne
    have himem : i ∈ (delete_user_intent s rid A).2.intents :=
      List.mem_filter.mpr ⟨hi, by simp [hne]⟩
    simp only [list_intents, get_user_intents, init_db_if_needed]
    exact List.mem_filter.mpr ⟨himem, by simp⟩
  · refine List.any_eq_false.mpr ?_
    intro i hi
    have hmem := (List.mem_filter.mp hi).2
    simp only [Bool.not_eq_true'] at hmem
    simp [hmem]

/-- C2 witness: on a store where brand 1 and intent 1 belong to u2, a delete
issued by u1 returns false and u2's records stay retrievable. -/
theorem c2_witness :
    (delete_user_brand demoStore 1 "u1").1 = false ∧
    { id := 1, owner_id := "u2", brand_name := "acme", is_mine := true,
      created_at := "t0" : Brand } ∈
      (list_brands (delete_user_brand demoStore 1 "u1").2 "u2").1 ∧
    (delete_user_intent demoStore 1 "u1").1 = false := by
  have h := c2_delete_iff_owned demoStore "u1" 1
  refine ⟨by decide, ?_, by decide⟩
  exact h.2.1 { id := 1, owner_id := "u2", brand_name := "acme",
                is_mine := true, created_at := "t0" } (by decide) (by decide)

/-- C4: a create either fully succeeds, returning a record that is present
in the store, with exactly the one new row appended, or fully fails with an
HTTP error and the tables exactly as before the call; there is no outcome
that reports an error yet persists the new record. For add_brand and
add_intent alike. -/
theorem c4_no_partial_writes (s : Store) (owner name : String) (mine : Bool)
    (alias_ prompt : String) :
    (∀ code detail, (add_brand s owner name mine).1 = ApiResult.httpError code detail →
      (add_brand s owner name mine).2.brands = s.brands ∧
      (add_brand s owner name mine).2.intents = s.intents) ∧
    (∀ b, (add_brand s owner name mine).1 = ApiResult.ok b →
      b ∈ (add_brand s owner name mine).2.brands ∧
      (add_brand s owner name mine).2.brands = s.brands ++ [newBrand s owner name mine]) ∧
    (∀ code detail, (add_intent s owner alias_ prompt).1 = ApiResult.httpError code detail →
      (add_intent s owner alias_ prompt).2.intents = s.intents ∧
      (add_intent s owner alias_ prompt).2.brands = s.brands) ∧
    (∀ i, (add_intent s owner alias_ prompt).1 = ApiResult.ok i →
      i ∈ (add_intent s owner alias_ prompt).2.intents ∧
      (add_intent s owner alias_ prompt).2.intents = s.intents ++ [newIntent s owner alias_ prompt]) := by
  refine ⟨?_, ?_, ?_, ?_⟩
  · intro code detail h
    rcases add_brand_cases s owner name mine with ⟨b, heq, -⟩ | heq
    · rw [heq] at h
      exact absurd h (by simp)
    · rw [heq]
      exact ⟨rfl, rfl⟩
  · intro b h
    rcases add_brand_cases s owner name mine with ⟨b', heq, hmem⟩ | heq
    · rw [heq] at h
      have hb : b' = b := by simpa using h
      subst hb
      rw [heq]
      exact ⟨hmem, rfl⟩
    · rw [heq] at h
      exact absurd h (by simp)
  · intro code detail h
    rcases add_intent_cases s owner alias_ prompt with ⟨i, heq, -⟩ | heq
    · rw [heq] at h
      exact absurd h (by simp)
    · rw [heq]
      exact ⟨rfl, rfl⟩
  · intro i h
    rcases add_intent_cases s owner alias_ prompt with ⟨i', heq, hmem⟩ | heq
    · rw [heq] at h
      have hi : i' = i := by simpa using h
      subst hi
      rw [heq]
      exact ⟨hmem, rfl⟩
    · rw [heq] at h
      exact absurd h (by simp)

/-- C8: init_db_if_needed is idempotent, touches no records, and every
router operation invoked on an initialised store behaves exactly as on the
store before initialisation: invoking it first is always safe. -/
theorem c8_init_idempotent :
    ∀ s : Store,
      init_db_if_needed (init_db_if_needed s) = init_db_if_needed s ∧
      (init_db_if_needed s).brands = s.brands ∧
      (init_db_if_needed s).intents = s.intents ∧
      (∀ owner name mine,
        add_brand (init_db_if_needed s) owner name mine = add_brand s owner name mine) ∧
      (∀ owner alias_ prompt,
        add_intent (init_db_if_needed s) owner alias_ prompt = add_intent s owner alias_ prompt) ∧
      (∀ owner, list_brands (init_db_if_needed s) owner = list_brands s owner) ∧
      (∀ owner, list_intents (init_db_if_needed s) owner = list_intents s owner) ∧
      (∀ owner rid, remove_brand (init_db_if_needed s) owner rid = remove_brand s owner rid) ∧
      (∀ owner rid, remove_intent (init_db_if_needed s) owner rid = remove_intent s owner rid) :=
  fun _ => ⟨rfl, rfl, rfl, fun _ _ _ => rfl, fun _ _ _ => rfl, fun _ => rfl,
            fun _ => rfl, fun _ _ => rfl, fun _ _ => rfl⟩

/-- C10: list_brands and list_intents are read-only on the records: both
tables are unchanged, for every owner and every store, after either call. -/
theorem c10_lists_read_only :
    ∀ (s : Store) (owner : String),
      (list_brands s owner).2.brands = s.brands ∧
      (list_brands s owner).2.intents = s.intents ∧
      (list_intents s owner).2.brands = s.brands ∧
      (list_intents s owner).2.intents = s.intents :=
  fun _ _ => ⟨rfl, rfl, rfl, rfl⟩

/-- C3: the source's add_brand fetches the created row back after the
insert; with a concurrent delete of that row committed between insert and
re-read the call reports HTTP 500 instead of the created record, while the
atomic create the spec requires returns the record directly from the
insert; sequentially both agree. -/
theorem c3_fetch_back_race :
    (add_brand_interleaved midDelete store0 "u1" "acme" true).1 =
      ApiResult.httpError 500 "Failed to retrieve created brand" ∧
    (add_brand_atomic store0 "u1" "acme" true).1 =
      ApiResult.ok { id := 1, owner_id := "u1", brand_name := "acme",
                     is_mine := true, created_at := "t0" } ∧
    (add_brand store0 "u1" "acme" true).1 =
      ApiResult.ok { id := 1, owner_id := "u1", brand_name := "acme",
                     is_mine := true, created_at := "t0" } := by
  refine ⟨by decide, by decide, by decide⟩

/-- C5 counterexample: create_brand with an empty brand_name and
create_intent with an empty intent_alias and empty prompt both succeed and
insert a record; no InvalidInput rejection exists in the code. -/
theorem c5_counterexample_empty_accepted :
    (add_brand store0 "u1" "" true).1 =
      ApiResult.ok { id := 1, owner_id := "u1", brand_name := "",
                     is_mine := true, created_at := "t0" } ∧
    (add_brand store0 "u1" "" true).2.brands =
      [{ id := 1, owner_id := "u1", brand_name := "", is_mine := true,
         created_at := "t0" }] ∧
    (add_intent store0 "u1" "" "").1 =
      ApiResult.ok { id := 1, owner_id := "u1", intent_alias := "",
                     prompt := "", created_at := "t0" } ∧
    (add_intent store0 "u1" "" "").2.intents =
      [{ id := 1, owner_id := "u1", intent_alias := "", prompt := "",
         created_at := "t0" }] := by
  refine ⟨by decide, by decide, by decide, by decide⟩

/-- C5 amended: the router performs no emptiness validation; a create with
an empty brand_name, an empty intent_alias or an empty prompt succeeds like
any other whenever its uniqueness key is fresh, and inserts the record. -/
theorem c5_amended_no_validation (s : Store) (owner : String) (mine : Bool)
    (alias_ : String)
    (hbids : ∀ b ∈ s.brands, b.id < s.next_brand_id)
    (hbkey : hasBrandKey s owner "" = false)
    (hiids : ∀ i ∈ s.intents, i.id < s.next_intent_id)
    (hikey : hasIntentKey s owner alias_ = false) :
    (add_brand s owner "" mine).1 = ApiResult.ok (newBrand s owner "" mine) ∧
    newBrand s owner "" mine ∈ (add_brand s owner "" mine).2.brands ∧
    (add_intent s owner alias_ "").1 = ApiResult.ok (newIntent s owner alias_ "") ∧
    newIntent s owner alias_ "" ∈ (add_intent s owner alias_ "").2.intents := by
  rw [add_brand_ok s owner "" mine hbids hbkey,
      add_intent_ok s owner alias_ "" hiids hikey]
  refine ⟨rfl, ?_, rfl, ?_⟩
  · simp [insertBrandStore]
  · simp [insertIntentStore]

/-- C5 amended witness: on the empty store u1 creates a brand with empty
name and an intent with empty alias and empty prompt. -/
theorem c5_amended_witness :
    (add_brand store0 "u1" "" true).1 = ApiResult.ok (newBrand store0 "u1" "" true) ∧
    newBrand store0 "u1" "" true ∈ (add_brand store0 "u1" "" true).2.brands ∧
    (add_intent store0 "u1" "" "").1 = ApiResult.ok (newIntent store0 "u1" "" "") ∧
    newIntent store0 "u1" "" "" ∈ (add_intent store0 "u1" "" "").2.intents :=
  c5_amended_no_validation store0 "u1" true "" (by decide) (by decide)
    (by decide) (by decide)

/-- C4 witness: on the empty store the successful create returns the row
that is then present in the table, and a duplicate create leaves the tables
untouched. -/
theorem c4_witness :
    newBrand store0 "u1" "acme" true ∈
      (add_brand store0 "u1" "acme" true).2.brands ∧
    (add_brand (add_brand store0 "u1" "acme" true).2 "u1" "acme" true).2.brands =
      (add_brand store0 "u1" "acme" true).2.brands := by
  have h1 := c4_no_partial_writes store0 "u1" "acme" true "w" "p"
  have h2 := c4_no_partial_writes (add_brand store0 "u1" "acme" true).2
      "u1" "acme" true "w" "p"
  refine ⟨?_, ?_⟩
  · exact (h1.2.1 (newBrand store0 "u1" "acme" true) (by decide)).1
  · exact (h2.1 400 (duplicateBrandDetail "acme") (by decide)).1

theorem hasBrandKey_false_of_no_owner (s : Store) (owner : String)
    (h : get_user_brands s owner = []) (name : String) :
    hasBrandKey s owner name = false := by
  rw [hasBrandKey]
  refine List.any_eq_false.mpr ?_
  intro b hb hp
  rw [Bool.and_eq_true] at hp
  have hmem : b ∈ get_user_brands s owner := List.mem_filter.mpr ⟨hb, hp.1⟩
  rw [h] at hmem
  exact absurd hmem (List.not_mem_nil b)

theorem hasIntentKey_false_of_no_owner (s : Store) (owner : String)
    (h : get_user_intents s owner = []) (alias_ : String) :
    hasIntentKey s owner alias_ = false := by
  rw [hasIntentKey]
  refine List.any_eq_false.mpr ?_
  intro i hi hp
  rw [Bool.and_eq_true] at hp
  have hmem : i ∈ get_user_intents s owner := List.mem_filter.mpr ⟨hi, hp.1⟩
  rw [h] at hmem
  exact absurd hmem (List.not_mem_nil i)

theorem createMany_fresh (owner : String) :
    ∀ (xs : List (String × Bool)) (s : Store), Inv s →
      (∀ x ∈ xs, hasBrandKey s owner x.1 = false) →
      (xs.map Prod.fst).Nodup →
      (∀ r ∈ (createMany s owner xs).1, ∃ b, r = ApiResult.ok b) ∧
      Inv (createMany s owner xs).2 ∧
      ((createMany s owner xs).2.brands.filter
          (fun b => b.owner_id == owner)).map Brand.brand_name
        = ((s.brands.filter (fun b => b.owner_id == owner)).map Brand.brand_name)
            ++ xs.map Prod.fst := by
  intro xs
  induction xs with
  | nil =>
    intro s hinv _ _
    refine ⟨?_, hinv, by simp [createMany]⟩
    intro r hr
    exact absurd hr (List.not_mem_nil r)
  | cons x xs ih =>
    intro s hinv hfresh hnodup
    have hx := hfresh x (List.mem_cons_self x xs)
    have hstep := add_brand_ok s owner x.1 x.2 hinv.1 hx
    have hinv2 := Inv_insertBrand s owner x.1 x.2 hinv hx
    have hxnotin : x.1 ∉ xs.map Prod.fst :=
      (List.nodup_cons.mp (by simpa using hnodup)).1
    have hfresh2 : ∀ y ∈ xs,
        hasBrandKey (insertBrandStore s owner x.1 x.2) owner y.1 = false := by
      intro y hy
      refine hasBrandKey_insert_of_ne s owner x.1 x.2 owner y.1
        (hfresh y (List.mem_cons_of_mem x hy)) ?_
      rintro ⟨-, hxy⟩
      refine hxnotin ?_
      rw [hxy]
      exact List.mem_map_of_mem Prod.fst hy
    have hnodup2 : (xs.map Prod.fst).Nodup :=
      (List.nodup_cons.mp (by simpa using hnodup)).2
    obtain ⟨ihall, ihinv, ihfilter⟩ :=
      ih (insertBrandStore s owner x.1 x.2) hinv2 hfresh2 hnodup2
    have hcm : createMany s owner (x :: xs) =
        (ApiResult.ok (newBrand s owner x.1 x.2) ::
           (createMany (insertBrandStore s owner x.1 x.2) owner xs).1,
         (createMany (insertBrandStore s owner x.1 x.2) owner xs).2) := by
      simp only [createMany]
      rw [hstep]
    rw [hcm]
    refine ⟨?_, ihinv, ?_⟩
    · intro r hr
      rcases List.mem_cons.mp hr with h1 | h2
      · exact ⟨newBrand s owner x.1 x.2, h1⟩
      · exact ihall r h2
    · rw [ihfilter]
      have hins : ((insertBrandStore s owner x.1 x.2).brands.filter
            (fun b => b.owner_id == owner)).map Brand.brand_name
          = ((s.brands.filter (fun b => b.owner_id == owner)).map Brand.brand_name)
              ++ [x.1] := by
        simp [insertBrandStore, List.filter_append, newBrand]
      rw [hins]
      simp

theorem createIntentMany_fresh (owner : String) :
    ∀ (ys : List (String × String)) (s : Store), Inv s →
      (∀ y ∈ ys, hasIntentKey s owner y.1 = false) →
      (ys.map Prod.fst).Nodup →
      (∀ r ∈ (createIntentMany s owner ys).1, ∃ i, r = ApiResult.ok i) ∧
      Inv (createIntentMany s owner ys).2 ∧
      ((createIntentMany s owner ys).2.intents.filter
          (fun i => i.owner_id == owner)).map Intent.intent_alias
        = ((s.intents.filter (fun i => i.owner_id == owner)).map Intent.intent_alias)
            ++ ys.map Prod.fst := by
  intro ys
  induction ys with
  | nil =>
    intro s hinv _ _
    refine ⟨?_, hinv, by simp [createIntentMany]⟩
    intro r hr
    exact absurd hr (List.not_mem_nil r)
  | cons y ys ih =>
    intro s hinv hfresh hnodup
    have hy := hfresh y (List.mem_cons_self y ys)
    have hstep := add_intent_ok s owner y.1 y.2 hinv.2.2.2.2.1 hy
    have hinv2 := Inv_insertIntent s owner y.1 y.2 hinv hy
    have hynotin : y.1 ∉ ys.map Prod.fst :=
      (List.nodup_cons.mp (by simpa using hnodup)).1
    have hfresh2 : ∀ z ∈ ys,
        hasIntentKey (insertIntentStore s owner y.1 y.2) owner z.1 = false := by
      intro z hz
      refine hasIntentKey_insert_of_ne s owner y.1 y.2 owner z.1
        (hfresh z (List.mem_cons_of_mem y hz)) ?_
      rintro ⟨-, hyz⟩
      refine hynotin ?_
      rw [hyz]
      exact List.mem_map_of_mem Prod.fst hz
    have hnodup2 : (ys.map Prod.fst).Nodup :=
      (List.nodup_cons.mp (by simpa using hnodup)).2
    obtain ⟨ihall, ihinv, ihfilter⟩ :=
      ih (insertIntentStore s owner y.1 y.2) hinv2 hfresh2 hnodup2
    have hcm : createIntentMany s owner (y :: ys) =
        (ApiResult.ok (newIntent s owner y.1 y.2) ::
           (createIntentMany (insertIntentStore s owner y.1 y.2) owner ys).1,
         (createIntentMany (insertIntentStore s owner y.1 y.2) owner ys).2) := by
      simp only [createIntentMany]
      rw [hstep]
    rw [hcm]
    refine ⟨?_, ihinv, ?_⟩
    · intro r hr
      rcases List.mem_cons.mp hr with h1 | h2
      · exact ⟨newIntent s owner y.1 y.2, h1⟩
      · exact ihall r h2
    · rw [ihfilter]
      have hins : ((insertIntentStore s owner y.1 y.2).intents.filter
            (fun i => i.owner_id == owner)).map Intent.intent_alias
          = ((s.intents.filter (fun i => i.owner_id == owner)).map Intent.intent_alias)
              ++ [y.1] := by
        simp [insertIntentStore, List.filter_append, newIntent]
      rw [hins]
      simp

theorem createSame_dup (owner name : String) (mine : Bool) :
    ∀ (k : Nat) (s : Store), hasBrandKey s owner name = true →
      (createSame s owner name mine k).1 =
        List.replicate k (ApiResult.httpError 400 (duplicateBrandDetail name)) ∧
      (createSame s owner name mine k).2.brands = s.brands := by
  intro k
  induction k with
  | zero => intro s _; exact ⟨rfl, rfl⟩
  | succ k ih =>
    intro s h
    have hd := add_brand_dup s owner name mine h
    have h2 : hasBrandKey (init_db_if_needed s) owner name = true := h
    obtain ⟨ih1, ih2⟩ := ih (init_db_if_needed s) h2
    have hcs : createSame s owner name mine (k + 1) =
        (ApiResult.httpError 400 (duplicateBrandDetail name) ::
           (createSame (init_db_if_needed s) owner name mine k).1,
         (createSame (init_db_if_needed s) owner name mine k).2) := by
      simp only [createSame]
      rw [hd]
    rw [hcs]
    constructor
    · rw [ih1]
      rfl
    · exact ih2

/-- C6: list_brands returns exactly the caller's rows, in insertion order
(the filter keeps store order), and after N successful creates for an owner
with no prior rows it returns exactly those N records in creation order,
with pairwise distinct ids and non-empty created_at; symmetrically for
list_intents. -/
theorem c6_list_scoped_ordered (s : Store) (owner : String)
    (xs : List (String × Bool)) (ys : List (String × String))
    (hinv : Inv s)
    (hbempty : get_user_brands s owner = [])
    (hiempty : get_user_intents s owner = [])
    (hxs : (xs.map Prod.fst).Nodup)
    (hys : (ys.map Prod.fst).Nodup) :
    (∀ r ∈ (createMany s owner xs).1, ∃ b, r = ApiResult.ok b) ∧
    (list_brands (createMany s owner xs).2 owner).1.map Brand.brand_name =
      xs.map Prod.fst ∧
    ((list_brands (createMany s owner xs).2 owner).1.map Brand.id).Nodup ∧
    (∀ b ∈ (list_brands (createMany s owner xs).2 owner).1, b.created_at ≠ "") ∧
    (∀ r ∈ (createIntentMany s owner ys).1, ∃ i, r = ApiResult.ok i) ∧
    (list_intents (createIntentMany s owner ys).2 owner).1.map Intent.intent_alias =
      ys.map Prod.fst ∧
    ((list_intents (createIntentMany s owner ys).2 owner).1.map Intent.id).Nodup ∧
    (∀ i ∈ (list_intents (createIntentMany s owner ys).2 owner).1, i.created_at ≠ "") ∧
    (∀ (t : Store) (o : String),
      (list_brands t o).1 = t.brands.filter (fun b => b.owner_id == o) ∧
      (list_intents t o).1 = t.intents.filter (fun i => i.owner_id == o)) := by
  have hbfresh : ∀ x ∈ xs, hasBrandKey s owner x.1 = false := fun x _ =>
    hasBrandKey_false_of_no_owner s owner hbempty x.1
  have hifresh : ∀ y ∈ ys, hasIntentKey s owner y.1 = false := fun y _ =>
    hasIntentKey_false_of_no_owner s owner hiempty y.1
  obtain ⟨ballok, binv, bfilter⟩ := createMany_fresh owner xs s hinv hbfresh hxs
  obtain ⟨iallok, iinv, ifilter⟩ := createIntentMany_fresh owner ys s hinv hifresh hys
  have hbeq : (list_brands (createMany s owner xs).2 owner).1 =
      (createMany s owner xs).2.brands.filter (fun b => b.owner_id == owner) := rfl
  have hieq : (list_intents (createIntentMany s owner ys).2 owner).1 =
      (createIntentMany s owner ys).2.intents.filter (fun i => i.owner_id == owner) := rfl
  have hbempty2 : s.brands.filter (fun b => b.owner_id == owner) = [] := hbempty
  have hiempty2 : s.intents.filter (fun i => i.owner_id == owner) = [] := hiempty
  refine ⟨ballok, ?_, ?_, ?_, iallok, ?_, ?_, ?_, fun t o => ⟨rfl, rfl⟩⟩
  · rw [hbeq, bfilter, hbempty2]
    simp
  · rw [hbeq]
    exact binv.2.1.sublist ((List.filter_sublist _).map _)
  · intro b hb
    rw [hbeq] at hb
    exact binv.2.2.2.1 b (List.mem_filter.mp hb).1
  · rw [hieq, ifilter, hiempty2]
    simp
  · rw [hieq]
    exact iinv.2.2.2.2.2.1.sublist ((List.filter_sublist _).map _)
  · intro i hi
    rw [hieq] at hi
    exact iinv.2.2.2.2.2.2.2 i (List.mem_filter.mp hi).1

/-- C6 witness: u1 creates two brands and one intent on the empty store;
list_brands and list_intents return them in creation order. -/
theorem c6_witness :
    (list_brands (createMany store0 "u1" [("acme", true), ("globex", false)]).2
        "u1").1.map Brand.brand_name = ["acme", "globex"] ∧
    (list_intents (createIntentMany store0 "u1" [("welcome", "hi")]).2
        "u1").1.map Intent.intent_alias = ["welcome"] := by
  have h := c6_list_scoped_ordered store0 "u1" [("acme", true), ("globex", false)]
    [("welcome", "hi")] Inv_store0 rfl rfl (by decide) (by decide)
  exact ⟨by simpa using h.2.1, by simpa using h.2.2.2.2.2.1⟩

/-- C7: in every state reachable from the empty store through router
operations, no two brand rows share (owner_id, brand_name) and no two
intent rows share (owner_id, intent_alias); and two distinct owners can
each create the same brand_name, one after the other, both succeeding. -/
theorem c7_uniqueness_reachable :
    ∀ ops : List Op,
      BrandKeysUnique (run store0 ops) ∧ IntentKeysUnique (run store0 ops) ∧
      (∀ A B name mA mB, A ≠ B →
        hasBrandKey (run store0 ops) A name = false →
        hasBrandKey (run store0 ops) B name = false →
        (∃ b, (add_brand (run store0 ops) A name mA).1 = ApiResult.ok b) ∧
        (∃ b, (add_brand (add_brand (run store0 ops) A name mA).2 B name mB).1 =
          ApiResult.ok b)) := by
  intro ops
  have hinv := Inv_run ops store0 Inv_store0
  refine ⟨hinv.2.2.1, hinv.2.2.2.2.2.2.1, ?_⟩
  intro A B name mA mB hAB hA hB
  obtain ⟨bA, hAeq, -⟩ := add_brand_fresh (run store0 ops) A name mA hA
  have hB2 : hasBrandKey (add_brand (run store0 ops) A name mA).2 B name = false := by
    rw [hAeq]
    exact hasBrandKey_insert_of_ne (run store0 ops) A name mA B name hB
      (fun hc => hAB hc.1)
  obtain ⟨bB, hBeq, -⟩ := add_brand_fresh _ B name mB hB2
  exact ⟨⟨bA, by rw [hAeq]⟩, ⟨bB, by rw [hBeq]⟩⟩

/-- C9: n identical create calls, serialized by the storage layer, yield
exactly one success and n - 1 DuplicateName failures, and the final
list_brands shows exactly one record with that name. -/
theorem c9_concurrent_same_key (s : Store) (owner name : String)
    (mine : Bool) (n : Nat) (hinv : Inv s)
    (hkey : hasBrandKey s owner name = false) (hn : 1 ≤ n) :
    (createSame s owner name mine n).1.countP (fun r => isOk r) = 1 ∧
    (createSame s owner name mine n).1.countP
      (fun r => decide (r = ApiResult.httpError 400 (duplicateBrandDetail name))) = n - 1 ∧
    ((list_brands (createSame s owner name mine n).2 owner).1.filter
      (fun b => b.brand_name == name)).length = 1 := by
  obtain ⟨k, rfl⟩ : ∃ k, n = k + 1 := ⟨n - 1, (Nat.sub_add_cancel hn).symm⟩
  have hstep := add_brand_ok s owner name mine hinv.1 hkey
  have hdup := hasBrandKey_insert_self s owner name mine
  obtain ⟨hrep, hbrands⟩ :=
    createSame_dup owner name mine k (insertBrandStore s owner name mine) hdup
  have hcs : createSame s owner name mine (k + 1) =
      (ApiResult.ok (newBrand s owner name mine) ::
         (createSame (insertBrandStore s owner name mine) owner name mine k).1,
       (createSame (insertBrandStore s owner name mine) owner name mine k).2) := by
    simp only [createSame]
    rw [hstep]
  rw [hcs]
  have hz : (List.replicate k (ApiResult.httpError 400 (duplicateBrandDetail name)) :
      List (ApiResult Brand)).countP (fun r => isOk r) = 0 := by
    refine List.countP_eq_zero.mpr ?_
    intro a ha
    rw [List.eq_of_mem_replicate ha]
    simp [isOk]
  have hk : (List.replicate k (ApiResult.httpError 400 (duplicateBrandDetail name)) :
      List (ApiResult Brand)).countP
        (fun r => decide (r = ApiResult.httpError 400 (duplicateBrandDetail name))) = k := by
    have hall : ∀ a ∈ (List.replicate k (ApiResult.httpError 400 (duplicateBrandDetail name)) :
        List (ApiResult Brand)),
        (fun r => decide (r = ApiResult.httpError 400 (duplicateBrandDetail name))) a = true := by
      intro a ha
      rw [List.eq_of_mem_replicate ha]
      simp
    rw [List.countP_eq_length.mpr hall, List.length_replicate]
  refine ⟨?_, ?_, ?_⟩
  · rw [hrep]
    simp [List.countP_cons, hz, isOk]
  · rw [hrep]
    simp only [List.countP_cons, hk]
    simp
  · have hXb : (createSame (insertBrandStore s owner name mine) owner name mine k).2.brands =
        s.brands ++ [newBrand s owner name mine] := hbrands
    have hlist : (list_brands
        (createSame (insertBrandStore s owner name mine) owner name mine k).2 owner).1 =
        ((s.brands ++ [newBrand s owner name mine]).filter (fun b => b.owner_id == owner)) := by
      have : (list_brands
          (createSame (insertBrandStore s owner name mine) owner name mine k).2 owner).1 =
          (createSame (insertBrandStore s owner name mine) owner name mine k).2.brands.filter
            (fun b => b.owner_id == owner) := rfl
      rw [this, hXb]
    rw [hlist]
    have hnil : ((s.brands.filter (fun b => b.owner_id == owner)).filter
        (fun b => b.brand_name == name)) = [] := by
      refine List.filter_eq_nil_iff.mpr ?_
      intro b hb hname
      have hown := (List.mem_filter.mp hb).2
      have hmem := (List.mem_filter.mp hb).1
      have : s.brands.any (fun b => b.owner_id == owner && b.brand_name == name) = true :=
        List.any_eq_true.mpr ⟨b, hmem, by simp [hown, hname]⟩
    
      rw [hasBrandKey] at hkey
      rw [hkey] at this
      exact absurd this (by simp)
    rw [List.filter_append, List.filter_append]
    have hnew1 : ([newBrand s owner name mine].filter (fun b => b.owner_id == owner)) =
        [newBrand s owner name mine] := by
      simp [newBrand]
    rw [hnew1, hnil]
    simp [newBrand]

/-- C9 witness: three serialized creates of (u1, acme) on the empty store
give one success, two DuplicateName failures, and one listed record. -/
theorem c9_witness :
    (createSame store0 "u1" "acme" true 3).1.countP (fun r => isOk r) = 1 ∧
    (createSame store0 "u1" "acme" true 3).1.countP
      (fun r => decide (r = ApiResult.httpError 400 (duplicateBrandDetail "acme"))) = 3 - 1 ∧
    ((list_brands (createSame store0 "u1" "acme" true 3).2 "u1").1.filter
      (fun b => b.brand_name == "acme")).length = 1 :=
  c9_concurrent_same_key store0 "u1" "acme" true 3 Inv_store0 (by decide) (by decide)

end LansUserConfig
